import Mathlib

/-!
# Verification of `birthname.py`

A shallow embedding of `src/birthname.py` in Lean 4, together with theorems
settling the specification claims.

Modelling conventions:
* Timestamps (epoch seconds) are modelled as `Int`.  The program compares and
  takes minima of timestamps; those operations are order-generic, so the
  integer model is faithful.
* External effects (the `stat` subprocess, `os.path.exists`, `os.rename`
  success, `cv2` image decoding, `hashlib` digests, `datetime.fromtimestamp`)
  are inputs to the embedded functions: each embedded function takes the
  observable outcome of the effect as an argument and computes exactly what
  the Python code computes from it.
* Python exceptions are modelled with `Except` / `Option`; a `try/except`
  block is modelled by a total handler function.
* The unbounded `while` loop resolving name collisions is modelled with
  explicit fuel; `none` marks fuel exhaustion (which the theorems rule out by
  hypothesis).
-/

namespace Birthname

/-- The `--hash` choices of the argument parser (line 17). -/
inductive HashMethod where
  | sha256
  | sha1
  | md5
  | imagehash
deriving DecidableEq, Repr

/-! ## Timestamp estimator (`get_creation_time_with_stat`, `get_oldest_time`) -/

/-- Embedding of `get_creation_time_with_stat` (lines 51-63).
The argument models the outcome of running `stat -c %W` on the file:
`none` is a `CalledProcessError` (caught: the function prints and returns
`None`), `some w` is a successful run whose output parsed to the integer `w`.
The Python function returns the birth time if it is positive and `None`
otherwise. -/
def get_creation_time_with_stat (statW : Option Int) : Option Int :=
  match statW with
  | some w => if w > 0 then some w else none
  | none => none

/-- The candidate-time list built by `get_oldest_time` (lines 66-70):
`times = [st_mtime, st_ctime]`, extended with the birth time when
`get_creation_time_with_stat` returned a (truthy, hence positive) value. -/
def candidate_times (mtime ctime : Int) (statW : Option Int) : List Int :=
  match get_creation_time_with_stat statW with
  | some b => [mtime, ctime, b]
  | none => [mtime, ctime]

/-- Python's `min` over a non-empty list. -/
def list_min : List Int → Int
  | [] => 0
  | t :: ts => ts.foldl min t

/-- Embedding of `get_oldest_time` (lines 65-76): the minimum of the
candidate times. -/
def get_oldest_time (mtime ctime : Int) (statW : Option Int) : Int :=
  list_min (candidate_times mtime ctime statW)

/-! ## Name builder (`rename_file`, lines 78-110) -/

/-- A local civil date-time, the observable result of
`datetime.datetime.fromtimestamp` (the epoch-to-local-time conversion is
performed by the C library; the embedding takes it as an input map). -/
structure DateTime where
  year : Nat
  month : Nat
  day : Nat
  hour : Nat
  minute : Nat
  second : Nat
deriving DecidableEq, Repr

/-- Zero-pad a number to two digits, as `strftime` does for
`%m %d %H %M %S`. -/
def pad2 (n : Nat) : String :=
  if n < 10 then "0" ++ toString n else toString n

/-- Zero-pad a number to four digits, as `strftime` does for `%Y`. -/
def pad4 (n : Nat) : String :=
  if n < 10 then "000" ++ toString n
  else if n < 100 then "00" ++ toString n
  else if n < 1000 then "0" ++ toString n
  else toString n

/-- Embedding of `datetime.strftime('%Y%m%d.%H%M%S')` (line 82). -/
def strftime_Ymd_HMS (dt : DateTime) : String :=
  pad4 dt.year ++ pad2 dt.month ++ pad2 dt.day ++ "." ++
    pad2 dt.hour ++ pad2 dt.minute ++ pad2 dt.second

/-- Embedding of `os.path.join(directory, name)` for a directory with no trailing
separator and a relative `name`, the only shape the program produces. -/
def os_path_join (dir name : String) : String :=
  dir ++ "/" ++ name

/-- Decidable substring test, the embedding of Python's `s in filename`
(over the character lists of the strings). -/
def sub_list : List Char → List Char → Bool
  | needle, [] => needle.isEmpty
  | needle, c :: t => needle.isPrefixOf (c :: t) || sub_list needle t

/-- Python's `s in filename` for strings. -/
def str_in (needle hay : String) : Bool :=
  sub_list needle.toList hay.toList

/-- Embedding of lines 84-85: the list comprehension
`[s for s in special_strings if s in filename]` followed by
`'-' + special_string[0] if special_string else ''`. -/
def select_special (special_strings : List String) (filename : String) : String :=
  match special_strings.filter (fun s => str_in s filename) with
  | [] => ""
  | s :: _ => "-" ++ s

/-- The base candidate name of lines 88-93: for `imagehash` the hash comes
first, then the timestamp; for the other methods the timestamp comes first. -/
def base_new_name (directory date_string filehash special_string extension : String)
    (method : HashMethod) : String :=
  if method = HashMethod.imagehash then
    os_path_join directory (filehash ++ "-" ++ date_string ++ special_string ++ extension)
  else
    os_path_join directory (date_string ++ "-" ++ filehash ++ special_string ++ extension)

/-- The candidate name tried with disambiguating counter `i`
(lines 99-103): for `imagehash` the counter is inserted after the marker
suffix and before the extension; otherwise `base_new_name + '-' + str(i) +
extension` (note `base_new_name` already ends with the extension). -/
def counter_candidate (directory date_string filehash special_string extension : String)
    (method : HashMethod) (base : String) (i : Nat) : String :=
  if method = HashMethod.imagehash then
    os_path_join directory
      (filehash ++ "-" ++ date_string ++ special_string ++ "-" ++ toString i ++ extension)
  else
    base ++ "-" ++ toString i ++ extension

/-- The `while os.path.exists(new_name)` loop of lines 97-104, with fuel.
`ex` is the observable `os.path.exists` predicate during the loop, `cand i`
the candidate built with counter `i`.  Returns `none` on fuel exhaustion. -/
def resolve_loop (ex : String → Bool) (cand : Nat → String) :
    String → Nat → Nat → Option String
  | cur, _, 0 => if ex cur then none else some cur
  | cur, i, fuel + 1 =>
      if ex cur then resolve_loop ex cand (cand i) (i + 1) fuel else some cur

/-- Result of one `rename_file` task. -/
inductive RenameOutcome where
  | skipped
  | renamed (old_name new_name : String)
deriving DecidableEq, Repr

/-- The pure part of `rename_file` after the hash and date are in hand
(lines 84-110): select the marker suffix, compose the candidate name,
skip when it equals the old name, otherwise resolve collisions and rename.
`ex` models `os.path.exists`.  `none` is fuel exhaustion of the collision
loop. -/
def rename_file_resolve (ex : String → Bool) (directory filename extension : String)
    (special_strings : List String) (method : HashMethod)
    (date_string filehash : String) (fuel : Nat) : Option RenameOutcome :=
  let old_name := os_path_join directory filename
  let special_string := select_special special_strings filename
  let base := base_new_name directory date_string filehash special_string extension method
  if old_name = base then
    some RenameOutcome.skipped
  else
    match resolve_loop ex
        (counter_candidate directory date_string filehash special_string extension method base)
        base 1 fuel with
    | some new_name => some (RenameOutcome.renamed old_name new_name)
    | none => none

/-! ## Hasher (`calculate_hash`, lines 28-49) -/

/-- A lower-case hexadecimal digit. -/
def hexDigit (n : Nat) : Char :=
  if n < 10 then Char.ofNat (48 + n) else Char.ofNat (87 + n)

/-- Python's `f'\x7bi:02x\x7d'` for a byte value: two lower-case hex digits. -/
def hexByte (n : Nat) : String :=
  String.mk [hexDigit (n / 16), hexDigit (n % 16)]

/-- The mean intensity `gray.mean()` of the resized greyscale grid, as an
exact rational.  (NumPy computes the mean of 64 byte values in double
precision; the sum is an integer below 2^14 and the divisor 64 a power of
two, so the floating-point value is exact and the comparison `pixel > mean`
agrees with the rational one.) -/
def gray_mean (gray : List Nat) : ℚ :=
  ((gray.map fun p : Nat => (p : ℚ)).sum) / (gray.length : ℚ)

/-- Embedding of `cv2.threshold(gray, avg, 255, 0)` (`THRESH_BINARY`): each pixel
strictly above the threshold becomes 255, the rest become 0. -/
def threshold_binary (avg : ℚ) (gray : List Nat) : List Nat :=
  gray.map fun p : Nat => if (p : ℚ) > avg then 255 else 0

/-- The perceptual branch of `calculate_hash` (lines 41-49) from the resized
8x8 greyscale grid onward: threshold against the mean, then
`''.join(f'\x7bi:02x\x7d' for i in binary.flatten())`. -/
def imagehash_of_gray (gray : List Nat) : String :=
  String.join ((threshold_binary (gray_mean gray) gray).map hexByte)

/-- The observable content of one file, as the hasher sees it:
`bytes` is the raw content streamed by the cryptographic branch, and
`decodedGray8x8` is the outcome of `cv2.imread` + `cv2.resize(..., (8, 8))`
+ `cv2.cvtColor(..., COLOR_BGR2GRAY)`: `none` when `cv2.imread` returned
`None` (not a valid, decodable image; `cv2.resize(None, ...)` then raises),
`some g` the 64 greyscale byte values of the 8x8 grid in row-major order. -/
structure FileData where
  bytes : List Nat
  decodedGray8x8 : Option (List Nat)

/-- Embedding of `calculate_hash` (lines 28-49).  `digest m bs` models the
`hashlib` hexdigest of content `bs` under cryptographic method `m`
(an external primitive; streaming in 65536-byte blocks reads exactly the
whole content).  The perceptual branch raises when the image did not
decode. -/
def calculate_hash (method : HashMethod) (fd : FileData)
    (digest : HashMethod → List Nat → String) : Except String String :=
  match method with
  | HashMethod.imagehash =>
      match fd.decodedGray8x8 with
      | none => Except.error "cv2.resize: src is None"
      | some gray => Except.ok (imagehash_of_gray gray)
  | m => Except.ok (digest m fd.bytes)

/-! ## Undo log persistence (`rename_files` lines 139-149,
`undo_last_rename` lines 112-123) -/

/-- One rename batch: the dict `\x7bold: new\x7d` of line 140, in insertion
order (Python dicts preserve it; `last_batch.items()` iterates it). -/
abbrev Batch := List (String × String)

/-- The persisted JSON log files, as a map from path to parsed content;
`none` is a missing file (`FileNotFoundError` on open for reading). -/
abbrev LogStore := String → Option (List Batch)

/-- Point update of a log store: the effect of opening a path for writing
and dumping `v`. -/
def store_write (st : LogStore) (p : String) (v : List Batch) : LogStore :=
  fun q => if q = p then some v else st q

/-- The path the batch orchestrator persists the undo log to
(lines 143 and 148). -/
def rename_history_write_path : String := "/var/log/rename_history.json"

/-- The path the undo applier reads and rewrites (lines 114 and 120):
a relative path, resolved in the current working directory. -/
def rename_history_undo_path : String := "rename_history.json"

/-- Lines 139-149 of `rename_files`: build `\x7bold: new\x7d` from the
non-`None` results; when non-empty, read the existing log (missing file
means an empty list), append the batch and rewrite the whole log. -/
def persist_batch (st : LogStore) (filtered_results : Batch) : LogStore :=
  if filtered_results = [] then st
  else
    let history := (st rename_history_write_path).getD []
    store_write st rename_history_write_path (history ++ [filtered_results])

/-- The reversal loop of lines 117-119 inside `undo_last_rename`'s `try`:
pairs are attempted in order; `renameOk new old` models whether
`os.rename(new_name, old_name)` succeeds.  The first failing pair raises,
so nothing after it is attempted.  Returns the list of attempted pairs
(each as the original `(old, new)` record) and whether all succeeded. -/
def undo_loop (renameOk : String → String → Bool) :
    List (String × String) → List (String × String) × Bool
  | [] => ([], true)
  | (o, n) :: t =>
      if renameOk n o then
        let r := undo_loop renameOk t
        ((o, n) :: r.1, r.2)
      else ([(o, n)], false)

/-- Result of running `undo_last_rename`: the log store afterwards, the
pairs whose reversal rename was attempted, the pairs successfully reverted,
and whether the `except` handler logged an error. -/
structure UndoResult where
  store : LogStore
  attempted : List (String × String)
  reverted : List (String × String)
  errorLogged : Bool

/-- Embedding of `undo_last_rename` (lines 112-123).  The whole body sits in
one `try`: a missing log file, an empty history (`list.pop()` raises
`IndexError`) or any failing reversal rename jumps to the `except` handler,
which only logs — so the function is total (never propagates) and the log is
rewritten (without the popped batch) only after every rename succeeded. -/
def undo_last_rename (st : LogStore) (renameOk : String → String → Bool) : UndoResult :=
  match st rename_history_undo_path with
  | none => ⟨st, [], [], true⟩
  | some history =>
      match history.getLast? with
      | none => ⟨st, [], [], true⟩
      | some last_batch =>
          let r := undo_loop renameOk last_batch
          if r.2 then
            ⟨store_write st rename_history_undo_path history.dropLast, r.1, r.1, false⟩
          else
            ⟨st, r.1, r.1.dropLast, true⟩

/-! ## Batch orchestrator and exit status (`rename_files`, `__main__`) -/

/-- The hard-coded marker substrings of line 126. -/
def special_strings : List String :=
  ["before-color-correction", "before-highres-fix", "mask", "before-refiner",
   "mask-composite", "censored", "before-hires", "before-face-restore", "init-image"]

/-- The per-file external observations one worker task consumes. -/
structure TaskInput where
  directory : String
  filename : String
  mtime : Int
  ctime : Int
  statW : Option Int
  fd : FileData

/-- Embedding of one full `rename_file` task (lines 78-110): estimate the
oldest time, format it, compute the hash (which may raise), then build the
name and rename.  `toDate` models `datetime.fromtimestamp` (local time),
`ex` models `os.path.exists`, `digest` the `hashlib` digests.  The outer
`Except` is a Python exception propagating out of the worker; the inner
`none` is collision-loop fuel exhaustion. -/
def rename_file_task (ex : String → Bool) (toDate : Int → DateTime)
    (digest : HashMethod → List Nat → String) (extension : String)
    (method : HashMethod) (fuel : Nat) (t : TaskInput) :
    Except String (Option RenameOutcome) :=
  let oldest_time := get_oldest_time t.mtime t.ctime t.statW
  let date_string := strftime_Ymd_HMS (toDate oldest_time)
  match calculate_hash method t.fd digest with
  | Except.error e => Except.error e
  | Except.ok filehash =>
      Except.ok (rename_file_resolve ex t.directory t.filename extension
        special_strings method date_string filehash fuel)

/-- Embedding of `multiprocessing.Pool.map` over the task list: if any worker raises, the
exception is re-raised in the parent when results are collected; otherwise
the list of results is returned. -/
def pool_map (f : TaskInput → Except String (Option RenameOutcome)) :
    List TaskInput → Except String (List (Option RenameOutcome))
  | [] => Except.ok []
  | t :: ts =>
      match f t, pool_map f ts with
      | Except.error e, _ => Except.error e
      | Except.ok _, Except.error e => Except.error e
      | Except.ok r, Except.ok rs => Except.ok (r :: rs)

/-- The successfully renamed pairs among the results (line 137's filter of
`None` results, feeding the dict of line 140). -/
def filtered_results (results : List (Option RenameOutcome)) : Batch :=
  results.foldr
    (fun r acc =>
      match r with
      | some (RenameOutcome.renamed o n) => (o, n) :: acc
      | _ => acc)
    []

/-- Exit status of the whole program (lines 20-23 and 151-155).
Missing `--dir` or `--ext` prints usage and exits 1.  `--dir undo` runs
`undo_last_rename`, which swallows every exception, and the interpreter
exits 0.  Otherwise `rename_files` runs; an exception propagating out of
`pool.map` (or elsewhere) is unhandled, so the interpreter exits 1, else it
falls off the end and exits 0. -/
def main_exit (dirArg extArg : Option String) (method : HashMethod)
    (ex : String → Bool) (toDate : Int → DateTime)
    (digest : HashMethod → List Nat → String) (fuel : Nat)
    (tasks : List TaskInput) : Nat :=
  match dirArg, extArg with
  | none, _ => 1
  | _, none => 1
  | some d, some e =>
      if d = "undo" then 0
      else
        match pool_map (rename_file_task ex toDate digest e method fuel) tasks with
        | Except.error _ => 1
        | Except.ok _ => 0

/-! ## Helper lemmas -/

/-- The collision loop returns its current candidate unchanged when that
candidate does not exist. -/
theorem resolve_loop_of_not_exists (ex : String → Bool) (cand : Nat → String)
    (cur : String) (i fuel : Nat) (h : ex cur = false) :
    resolve_loop ex cand cur i fuel = some cur := by
  cases fuel <;> simp [resolve_loop, h]

/-- Characterization of the collision loop started at an existing candidate:
the result is the candidate with the least counter (at or above the starting
counter) whose name does not exist. -/
theorem resolve_loop_spec (ex : String → Bool) (cand : Nat → String) :
    ∀ (fuel i : Nat) (cur new : String), ex cur = true →
      resolve_loop ex cand cur i fuel = some new →
      ∃ k, i ≤ k ∧ new = cand k ∧ ex (cand k) = false ∧
        ∀ j, i ≤ j → j < k → ex (cand j) = true := by
  intro fuel
  induction fuel with
  | zero =>
      intro i cur new hcur hres
      simp [resolve_loop, hcur] at hres
  | succ n ih =>
      intro i cur new hcur hres
      simp only [resolve_loop, hcur, if_true] at hres
      by_cases hci : ex (cand i) = true
      · obtain ⟨k, hik, hnew, hk, hmin⟩ := ih (i + 1) (cand i) new hci hres
        refine ⟨k, by omega, hnew, hk, fun j hij hjk => ?_⟩
        rcases Nat.eq_or_lt_of_le hij with heq | hlt
        · rw [← heq]; exact hci
        · exact hmin j hlt hjk
      · have hci' : ex (cand i) = false := by simpa using hci
        rw [resolve_loop_of_not_exists ex cand _ _ _ hci'] at hres
        cases hres
        exact ⟨i, le_refl i, rfl, hci',
          fun j hij hjk => absurd (lt_of_le_of_lt hij hjk) (lt_irrefl i)⟩

/-! ## Claims -/

/-- C4: the timestamp estimator returns the minimum of the available
candidate times (modification time, metadata-change time, and the birth
time when the `stat` subprocess reports a positive one), and when the birth
time is unavailable it returns exactly the earlier of modification and
metadata-change time, with no substituted fallback value. -/
theorem C4_oldest_time_is_min (mtime ctime : Int) (statW : Option Int) :
    (get_oldest_time mtime ctime statW ∈ candidate_times mtime ctime statW ∧
      ∀ t ∈ candidate_times mtime ctime statW, get_oldest_time mtime ctime statW ≤ t) ∧
    (get_creation_time_with_stat statW = none →
      get_oldest_time mtime ctime statW = min mtime ctime) := by
  unfold get_oldest_time candidate_times
  cases h : get_creation_time_with_stat statW with
  | none =>
      refine ⟨⟨?_, ?_⟩, fun _ => ?_⟩ <;>
        simp [list_min, List.mem_cons] <;> omega
  | some b =>
      refine ⟨⟨?_, ?_⟩, fun h2 => by simp at h2⟩ <;>
        simp [list_min, List.mem_cons] <;> omega

/-- Witness for C4 at a concrete input: with `mtime = 100`, `ctime = 50`
and no birth time, the estimator returns `min 100 50 = 50`. -/
theorem C4_oldest_time_is_min_witness :
    get_oldest_time 100 50 none = min 100 50 ∧ get_oldest_time 100 50 none = 50 := by
  have h := (C4_oldest_time_is_min 100 50 none).2 rfl
  exact ⟨h, by rw [h]; decide⟩

/-- C7: at most one marker suffix is ever appended: the configured
marker list is scanned in order and the first marker contained in the
original filename wins (the result is `"-" ++ m` for that single marker
`m`); when no marker is contained in the filename, the suffix is empty. -/
theorem C7_marker_selection (specials : List String) (filename : String) :
    ((∀ s ∈ specials, str_in s filename = false) →
      select_special specials filename = "") ∧
    (∀ pre m suf, specials = pre ++ m :: suf → str_in m filename = true →
      (∀ s ∈ pre, str_in s filename = false) →
      select_special specials filename = "-" ++ m) := by
  constructor
  · intro hall
    unfold select_special
    have hnil : specials.filter (fun s => str_in s filename) = [] := by
      rw [List.filter_eq_nil_iff]
      intro a ha
      simp [hall a ha]
    rw [hnil]
  · intro pre m suf hs hm hpre
    unfold select_special
    subst hs
    rw [List.filter_append]
    have h1 : pre.filter (fun s => str_in s filename) = [] := by
      rw [List.filter_eq_nil_iff]
      intro a ha
      simp [hpre a ha]
    rw [h1, List.filter_cons_of_pos (by simpa using hm)]
    simp

/-- Witness for C7: the filename `x-mask-censored.png` contains both
`mask` and `censored`, and the suffix is `-mask` because `mask` comes first
in the configured list. -/
theorem C7_marker_selection_witness :
    select_special special_strings "x-mask-censored.png" = "-mask" :=
  (C7_marker_selection special_strings "x-mask-censored.png").2
    ["before-color-correction", "before-highres-fix"] "mask"
    ["before-refiner", "mask-composite", "censored", "before-hires",
      "before-face-restore", "init-image"]
    (by decide) (by decide) (by decide)

/-- C2: when the candidate name collides, the disambiguating counter is
placed according to the hash method: under `imagehash` it is inserted after
the marker suffix and before the extension; under every other method it is
appended after the full base name `base_new_name` (which already ends in
the extension, as in the source's `base_new_name` variable), with the
extension following the counter. -/
theorem C2_counter_placement (ex : String → Bool)
    (directory date_string filehash special_string extension : String)
    (method : HashMethod) (fuel : Nat) (new_name : String)
    (hbase : ex (base_new_name directory date_string filehash special_string extension method)
      = true)
    (hres : resolve_loop ex
        (counter_candidate directory date_string filehash special_string extension method
          (base_new_name directory date_string filehash special_string extension method))
        (base_new_name directory date_string filehash special_string extension method)
        1 fuel = some new_name) :
    ∃ k, 1 ≤ k ∧
      (method = HashMethod.imagehash →
        new_name = os_path_join directory
          (filehash ++ "-" ++ date_string ++ special_string ++ "-" ++ toString k ++ extension)) ∧
      (method ≠ HashMethod.imagehash →
        new_name = base_new_name directory date_string filehash special_string extension method
          ++ "-" ++ toString k ++ extension) := by
  obtain ⟨k, hk1, hnew, _, _⟩ := resolve_loop_spec ex _ fuel 1 _ new_name hbase hres
  refine ⟨k, hk1, fun him => ?_, fun hnim => ?_⟩
  · rw [hnew]; simp [counter_candidate, him]
  · rw [hnew]; simp [counter_candidate, hnim]

/-- Witness for C2 at a concrete input: under `sha256`, with the base
candidate `d/20230601.100000-ha.png` existing, the resolved name is the
base name with `-1` and a second copy of the extension appended. -/
theorem C2_counter_placement_witness :
    ∃ k, 1 ≤ k ∧
      (HashMethod.sha256 = HashMethod.imagehash →
        "d/20230601.100000-ha.png-1.png" = os_path_join "d"
          ("ha" ++ "-" ++ "20230601.100000" ++ "" ++ "-" ++ toString k ++ ".png")) ∧
      (HashMethod.sha256 ≠ HashMethod.imagehash →
        "d/20230601.100000-ha.png-1.png"
          = base_new_name "d" "20230601.100000" "ha" "" ".png" HashMethod.sha256
            ++ "-" ++ toString k ++ ".png") :=
  C2_counter_placement (fun s => s == "d/20230601.100000-ha.png")
    "d" "20230601.100000" "ha" "" ".png" HashMethod.sha256 5
    "d/20230601.100000-ha.png-1.png" (by decide) (by decide)

/-- C8: when the candidate name collides, the resolved output path does
not exist in the directory at resolution time (which is what makes final
names within one batch unique), and the counters are tried in increasing
order starting at 1: the resolved name carries the least counter `k ≥ 1`
whose candidate is free, every smaller counter's candidate existing. -/
theorem C8_collision_resolution (ex : String → Bool)
    (directory date_string filehash special_string extension : String)
    (method : HashMethod) (fuel : Nat) (new_name : String)
    (hbase : ex (base_new_name directory date_string filehash special_string extension method)
      = true)
    (hres : resolve_loop ex
        (counter_candidate directory date_string filehash special_string extension method
          (base_new_name directory date_string filehash special_string extension method))
        (base_new_name directory date_string filehash special_string extension method)
        1 fuel = some new_name) :
    ex new_name = false ∧
    ∃ k, 1 ≤ k ∧
      new_name = counter_candidate directory date_string filehash special_string extension
        method (base_new_name directory date_string filehash special_string extension method) k ∧
      ∀ j, 1 ≤ j → j < k →
        ex (counter_candidate directory date_string filehash special_string extension
          method (base_new_name directory date_string filehash special_string extension method) j)
          = true := by
  obtain ⟨k, hk1, hnew, hfree, hmin⟩ := resolve_loop_spec ex _ fuel 1 _ new_name hbase hres
  exact ⟨by rw [hnew]; exact hfree, k, hk1, hnew, hmin⟩

/-- Witness for C8 at a concrete input: under `imagehash`, with the base
candidate and the counter-1 candidate both existing, the loop resolves to
the counter-2 candidate, which does not exist. -/
theorem C8_collision_resolution_witness :
    (fun s => s == "d/ff00-20230601.100000-mask.jpg"
        || s == "d/ff00-20230601.100000-mask-1.jpg") "d/ff00-20230601.100000-mask-2.jpg"
      = false ∧
    ∃ k, 1 ≤ k ∧
      "d/ff00-20230601.100000-mask-2.jpg"
        = counter_candidate "d" "20230601.100000" "ff00" "-mask" ".jpg" HashMethod.imagehash
          (base_new_name "d" "20230601.100000" "ff00" "-mask" ".jpg" HashMethod.imagehash) k ∧
      ∀ j, 1 ≤ j → j < k →
        (fun s => s == "d/ff00-20230601.100000-mask.jpg"
          || s == "d/ff00-20230601.100000-mask-1.jpg")
          (counter_candidate "d" "20230601.100000" "ff00" "-mask" ".jpg" HashMethod.imagehash
            (base_new_name "d" "20230601.100000" "ff00" "-mask" ".jpg" HashMethod.imagehash) j)
          = true :=
  C8_collision_resolution
    (fun s => s == "d/ff00-20230601.100000-mask.jpg"
      || s == "d/ff00-20230601.100000-mask-1.jpg")
    "d" "20230601.100000" "ff00" "-mask" ".jpg" HashMethod.imagehash 5
    "d/ff00-20230601.100000-mask-2.jpg" (by decide) (by decide)

/-- The length of a joined list of strings is the sum of the lengths. -/
theorem string_join_length (l : List String) :
    (String.join l).length = (l.map String.length).sum := by
  have h : ∀ (t : List String) (acc : String),
      (t.foldl (fun r s => r ++ s) acc).length = acc.length + (t.map String.length).sum := by
    intro t
    induction t with
    | nil => intro acc; simp
    | cons s t ih => intro acc; simp [ih, String.length_append]; omega
  show (l.foldl (fun r s => r ++ s) "").length = _
  simpa using h l ""

/-- C9: for a decoded image, the perceptual hash thresholds each pixel
of the 8x8 greyscale grid strictly against the grid's mean intensity and
emits one byte per pixel as two hex characters (`"ff"` above the mean,
`"00"` otherwise), 128 hex characters in total; when the path does not
decode as an image (`cv2.imread` returns `None`), the perceptual method
fails. -/
theorem C9_imagehash_format (gray : List Nat) (hlen : gray.length = 64) :
    (imagehash_of_gray gray).length = 128 ∧
    imagehash_of_gray gray
      = String.join (gray.map fun p : Nat => if (p : ℚ) > gray_mean gray then "ff" else "00") ∧
    ∀ (fd : FileData) (digest : HashMethod → List Nat → String),
      fd.decodedGray8x8 = none →
      calculate_hash HashMethod.imagehash fd digest
        = Except.error "cv2.resize: src is None" := by
  have hff : hexByte 255 = "ff" := by decide
  have h00 : hexByte 0 = "00" := by decide
  have h2 : imagehash_of_gray gray
      = String.join (gray.map fun p : Nat => if (p : ℚ) > gray_mean gray then "ff" else "00") := by
    unfold imagehash_of_gray threshold_binary
    rw [List.map_map]
    have hfun : (hexByte ∘ fun p : Nat => if (p : ℚ) > gray_mean gray then 255 else 0)
        = fun p : Nat => if (p : ℚ) > gray_mean gray then "ff" else "00" := by
      funext p
      by_cases hc : gray_mean gray < (p : ℚ)
      · simp [Function.comp, hc, hff]
      · simp [Function.comp, hc, h00]
    rw [hfun]
  refine ⟨?_, h2, ?_⟩
  · rw [h2, string_join_length, List.map_map]
    have hconst : (String.length ∘ fun p : Nat =>
        if (p : ℚ) > gray_mean gray then "ff" else "00") = fun _ => 2 := by
      funext p
      by_cases hc : (p : ℚ) > gray_mean gray
      · simp only [Function.comp_apply, if_pos hc]; rfl
      · simp only [Function.comp_apply, if_neg hc]; rfl
    rw [hconst]
    have hsum : ∀ (l : List Nat), (l.map fun _ => (2 : Nat)).sum = 2 * l.length := by
      intro l
      induction l with
      | nil => simp
      | cons a t ih => simp [ih]; omega
    rw [hsum, hlen]
  · intro fd digest hfd
    simp [calculate_hash, hfd]

/-- Witness for C9 at a concrete input: a grid of 32 dark and 32 bright
pixels hashes to a 128-character string, and a non-decodable file makes the
perceptual method fail. -/
theorem C9_imagehash_format_witness :
    (imagehash_of_gray (List.replicate 32 10 ++ List.replicate 32 20)).length = 128 ∧
    calculate_hash HashMethod.imagehash ⟨[], none⟩ (fun _ _ => "")
      = Except.error "cv2.resize: src is None" := by
  have h := C9_imagehash_format (List.replicate 32 10 ++ List.replicate 32 20) (by decide)
  exact ⟨h.1, h.2.2 ⟨[], none⟩ (fun _ _ => "") rfl⟩

/-- The reversal loop with a successful prefix and then a failing pair:
exactly the prefix and the failing pair are attempted, and the loop reports
failure. -/
theorem undo_loop_fail (renameOk : String → String → Bool) :
    ∀ (pre : List (String × String)) (o n : String) (post : List (String × String)),
      (∀ p ∈ pre, renameOk p.2 p.1 = true) → renameOk n o = false →
      undo_loop renameOk (pre ++ (o, n) :: post) = (pre ++ [(o, n)], false) := by
  intro pre
  induction pre with
  | nil =>
      intro o n post _ hfail
      simp [undo_loop, hfail]
  | cons q t ih =>
      intro o n post hpre hfail
      obtain ⟨qo, qn⟩ := q
      have hq : renameOk qn qo = true := hpre (qo, qn) (List.mem_cons_self _ _)
      simp [undo_loop, hq,
        ih o n post (fun p hp => hpre p (List.mem_cons_of_mem _ hp)) hfail]

/-- C10: the undo operation is modelled by the total function
`undo_last_rename` (the whole body sits in one `try`, whose `except`
handler only logs, so no exception reaches the caller), and it is atomic
with respect to its log file: paths other than its log path are never
written; when reading the log fails, when the history is empty (pop
raises), or when any reversal rename fails, the whole store is left
unmodified; the log is rewritten — without the popped batch — exactly when
every rename in that batch succeeded. -/
theorem C10_undo_atomicity (st : LogStore) (renameOk : String → String → Bool) :
    (∀ p, p ≠ rename_history_undo_path →
      (undo_last_rename st renameOk).store p = st p) ∧
    (st rename_history_undo_path = none →
      (undo_last_rename st renameOk).store = st) ∧
    (st rename_history_undo_path = some [] →
      (undo_last_rename st renameOk).store = st) ∧
    (∀ history last_batch, st rename_history_undo_path = some history →
      history.getLast? = some last_batch →
      (undo_loop renameOk last_batch).2 = false →
      (undo_last_rename st renameOk).store = st) ∧
    (∀ history last_batch, st rename_history_undo_path = some history →
      history.getLast? = some last_batch →
      (undo_loop renameOk last_batch).2 = true →
      (undo_last_rename st renameOk).store
        = store_write st rename_history_undo_path history.dropLast) := by
  refine ⟨fun p hp => ?_, fun h => ?_, fun h => ?_,
    fun history lb he hl hf => ?_, fun history lb he hl ht => ?_⟩
  · unfold undo_last_rename
    cases hst : st rename_history_undo_path with
    | none => rfl
    | some history =>
        dsimp only
        cases hl : history.getLast? with
        | none => rfl
        | some lb =>
            dsimp only
            cases hok : (undo_loop renameOk lb).2 with
            | false => simp [hok]
            | true => simp [hok, store_write, hp]
  · unfold undo_last_rename
    rw [h]
  · unfold undo_last_rename
    rw [h]
    rfl
  · unfold undo_last_rename
    rw [he]
    simp [hl, hf]
  · unfold undo_last_rename
    rw [he]
    simp [hl, ht]

/-- Witness for C10 at a concrete input: one batch whose single reversal
rename fails leaves the log store untouched. -/
theorem C10_undo_atomicity_witness :
    (undo_last_rename
        (fun p => if p = rename_history_undo_path then some [[("a", "x")]] else none)
        (fun _ _ => false)).store
      = (fun p => if p = rename_history_undo_path then some [[("a", "x")]] else none) :=
  (C10_undo_atomicity
      (fun p => if p = rename_history_undo_path then some [[("a", "x")]] else none)
      (fun _ _ => false)).2.2.2.1
    [[("a", "x")]] [("a", "x")] (by decide) (by decide) (by decide)

/-- Counterexample to C3 as stated: in the batch
`[("a", "x"), ("b", "y")]`, the reversal of the first pair fails
(`os.rename("x", "a")` raises) and the second pair — whose rename would
succeed — is never attempted: the single `try` around the loop aborts the
remaining reversals instead of continuing. -/
theorem C3_counterexample :
    (undo_last_rename
        (fun p => if p = rename_history_undo_path
          then some [[("a", "x"), ("b", "y")]] else none)
        (fun n _ => n != "x")).attempted = [("a", "x")] ∧
    ("b", "y") ∉ (undo_last_rename
        (fun p => if p = rename_history_undo_path
          then some [[("a", "x"), ("b", "y")]] else none)
        (fun n _ => n != "x")).attempted ∧
    (fun (n : String) (_ : String) => n != "x") "y" "b" = true := by
  decide

/-- C3 amended: a failure renaming an individual pair of the popped
batch is caught and logged but aborts the remaining reversals in that
batch: exactly the pairs up to and including the first failing pair are
attempted, the pairs after it are not, the already-reversed entries are not
rolled back (they stay reverted), and the log file is left unmodified. -/
theorem C3_undo_failure_aborts (st : LogStore) (renameOk : String → String → Bool)
    (history : List Batch) (pre : List (String × String)) (o n : String)
    (post : List (String × String))
    (hst : st rename_history_undo_path = some history)
    (hl : history.getLast? = some (pre ++ (o, n) :: post))
    (hpre : ∀ p ∈ pre, renameOk p.2 p.1 = true)
    (hfail : renameOk n o = false) :
    (undo_last_rename st renameOk).attempted = pre ++ [(o, n)] ∧
    (undo_last_rename st renameOk).reverted = pre ∧
    (undo_last_rename st renameOk).store = st ∧
    (undo_last_rename st renameOk).errorLogged = true := by
  have hloop := undo_loop_fail renameOk pre o n post hpre hfail
  unfold undo_last_rename
  rw [hst]
  simp [hl, hloop, List.dropLast_concat]

/-- Witness for C3's amended statement at a concrete input: first pair
reverts, second pair fails, log untouched. -/
theorem C3_undo_failure_aborts_witness :
    (undo_last_rename
        (fun p => if p = rename_history_undo_path
          then some [[("a", "x"), ("b", "y")]] else none)
        (fun n _ => n == "x")).attempted = [("a", "x"), ("b", "y")] ∧
    (undo_last_rename
        (fun p => if p = rename_history_undo_path
          then some [[("a", "x"), ("b", "y")]] else none)
        (fun n _ => n == "x")).reverted = [("a", "x")] ∧
    (undo_last_rename
        (fun p => if p = rename_history_undo_path
          then some [[("a", "x"), ("b", "y")]] else none)
        (fun n _ => n == "x")).store
      = (fun p => if p = rename_history_undo_path
          then some [[("a", "x"), ("b", "y")]] else none) ∧
    (undo_last_rename
        (fun p => if p = rename_history_undo_path
          then some [[("a", "x"), ("b", "y")]] else none)
        (fun n _ => n == "x")).errorLogged = true := by
  have h := C3_undo_failure_aborts
    (fun p => if p = rename_history_undo_path
      then some [[("a", "x"), ("b", "y")]] else none)
    (fun n _ => n == "x")
    [[("a", "x"), ("b", "y")]] [("a", "x")] "b" "y" []
    (by decide) (by decide) (by decide) (by decide)
  exact h

/-- C1 (code bug): `rename_files` persists the undo log to
`/var/log/rename_history.json` (lines 143/148) while `undo_last_rename`
reads and rewrites the relative path `rename_history.json`
(lines 114/120).  Evaluating the code at the failing input: after a rename
invocation has persisted batch `[("o2", "n2")]` on top of `[("o1", "n1")]`,
running undo (with every rename able to succeed, and no file at the
relative path) attempts no reversal, logs an error, and leaves both batches
in the persisted log — instead of restoring `n2` to `o2` and leaving only
the first batch. -/
theorem C1_undo_log_path_mismatch :
    rename_history_write_path ≠ rename_history_undo_path ∧
    persist_batch (fun p => if p = rename_history_write_path
        then some [[("o1", "n1")]] else none) [("o2", "n2")] rename_history_write_path
      = some [[("o1", "n1")], [("o2", "n2")]] ∧
    (undo_last_rename (persist_batch (fun p => if p = rename_history_write_path
        then some [[("o1", "n1")]] else none) [("o2", "n2")]) (fun _ _ => true)).attempted
      = [] ∧
    (undo_last_rename (persist_batch (fun p => if p = rename_history_write_path
        then some [[("o1", "n1")]] else none) [("o2", "n2")]) (fun _ _ => true)).store
        rename_history_write_path
      = some [[("o1", "n1")], [("o2", "n2")]] ∧
    (undo_last_rename (persist_batch (fun p => if p = rename_history_write_path
        then some [[("o1", "n1")]] else none) [("o2", "n2")]) (fun _ _ => true)).errorLogged
      = true := by
  decide

/-- A rename task whose base candidate is free renames the file to the base
candidate (no counter). -/
theorem rename_file_resolve_no_collision (ex : String → Bool)
    (directory filename extension : String) (specials : List String)
    (method : HashMethod) (date_string filehash : String) (fuel : Nat)
    (hne : os_path_join directory filename
      ≠ base_new_name directory date_string filehash
          (select_special specials filename) extension method)
    (hex : ex (base_new_name directory date_string filehash
      (select_special specials filename) extension method) = false) :
    rename_file_resolve ex directory filename extension specials method
        date_string filehash fuel
      = some (RenameOutcome.renamed (os_path_join directory filename)
          (base_new_name directory date_string filehash
            (select_special specials filename) extension method)) := by
  unfold rename_file_resolve
  rw [if_neg hne, resolve_loop_of_not_exists _ _ _ _ _ hex]

/-- C5: the candidate name places the hash before the timestamp for
`imagehash` and the timestamp before the hash for every other method, with
the marker suffix next and the extension last; the timestamp is formatted
`YYYYMMDD.HHMMSS` from the local civil time; and the spec's example holds
end-to-end: a `sha256` file with local modification time
2023-06-01 10:00:00 (the earliest candidate) and hash `abcd1234` is renamed
to `20230601.100000-abcd1234.png`. -/
theorem C5_name_composition :
    (∀ directory date_string filehash special_string extension,
      base_new_name directory date_string filehash special_string extension
          HashMethod.imagehash
        = os_path_join directory
            (filehash ++ "-" ++ date_string ++ special_string ++ extension)) ∧
    (∀ directory date_string filehash special_string extension (method : HashMethod),
      method ≠ HashMethod.imagehash →
      base_new_name directory date_string filehash special_string extension method
        = os_path_join directory
            (date_string ++ "-" ++ filehash ++ special_string ++ extension)) ∧
    strftime_Ymd_HMS ⟨2023, 6, 1, 10, 0, 0⟩ = "20230601.100000" ∧
    (∀ (ex : String → Bool) (toDate : Int → DateTime),
      ex "d/20230601.100000-abcd1234.png" = false →
      toDate 1685606400 = ⟨2023, 6, 1, 10, 0, 0⟩ →
      rename_file_task ex toDate (fun _ _ => "abcd1234") ".png" HashMethod.sha256 1
          ⟨"d", "photo.png", 1685606400, 1685700000, none, ⟨[], none⟩⟩
        = Except.ok (some (RenameOutcome.renamed "d/photo.png"
            "d/20230601.100000-abcd1234.png"))) := by
  refine ⟨fun directory date_string filehash special_string extension => ?_,
    fun directory date_string filehash special_string extension method hm => ?_,
    by decide, fun ex toDate hex hdate => ?_⟩
  · simp [base_new_name]
  · simp [base_new_name, hm]
  · simp only [rename_file_task]
    rw [show get_oldest_time 1685606400 1685700000 none = (1685606400 : Int) from by decide,
      hdate,
      show strftime_Ymd_HMS ⟨2023, 6, 1, 10, 0, 0⟩ = "20230601.100000" from by decide]
    dsimp only [calculate_hash]
    rw [rename_file_resolve_no_collision ex "d" "photo.png" ".png" special_strings
      HashMethod.sha256 "20230601.100000" "abcd1234" 1 (by decide)
      (by rw [show base_new_name "d" "20230601.100000" "abcd1234"
          (select_special special_strings "photo.png") ".png" HashMethod.sha256
          = "d/20230601.100000-abcd1234.png" from by decide]; exact hex)]
    rw [show base_new_name "d" "20230601.100000" "abcd1234"
        (select_special special_strings "photo.png") ".png" HashMethod.sha256
        = "d/20230601.100000-abcd1234.png" from by decide]
    rfl

/-- Witness for C5 at concrete inputs: instantiating the non-`imagehash`
field order at `sha256`, and the example pipeline with a concrete
`os.path.exists` and local-time map. -/
theorem C5_name_composition_witness :
    base_new_name "d" "20230601.100000" "abcd1234" "" ".png" HashMethod.sha256
      = os_path_join "d" ("20230601.100000" ++ "-" ++ "abcd1234" ++ "" ++ ".png") ∧
    rename_file_task (fun _ => false) (fun _ => ⟨2023, 6, 1, 10, 0, 0⟩)
        (fun _ _ => "abcd1234") ".png" HashMethod.sha256 1
        ⟨"d", "photo.png", 1685606400, 1685700000, none, ⟨[], none⟩⟩
      = Except.ok (some (RenameOutcome.renamed "d/photo.png"
          "d/20230601.100000-abcd1234.png")) :=
  ⟨C5_name_composition.2.1 "d" "20230601.100000" "abcd1234" "" ".png"
      HashMethod.sha256 (by decide),
    C5_name_composition.2.2.2 (fun _ => false) (fun _ => ⟨2023, 6, 1, 10, 0, 0⟩)
      rfl rfl⟩

/-- The pool map succeeds when every task succeeds. -/
theorem pool_map_ok (f : TaskInput → Except String (Option RenameOutcome)) :
    ∀ tasks : List TaskInput, (∀ t ∈ tasks, ∃ r, f t = Except.ok r) →
      ∃ rs, pool_map f tasks = Except.ok rs := by
  intro tasks
  induction tasks with
  | nil => exact fun _ => ⟨[], rfl⟩
  | cons t ts ih =>
      intro h
      obtain ⟨r, hr⟩ := h t (List.mem_cons_self _ _)
      obtain ⟨rs, hrs⟩ := ih (fun u hu => h u (List.mem_cons_of_mem _ hu))
      exact ⟨r :: rs, by simp [pool_map, hr, hrs]⟩

/-- The pool map re-raises when some task raises. -/
theorem pool_map_error (f : TaskInput → Except String (Option RenameOutcome)) :
    ∀ tasks : List TaskInput,
      (∃ t ∈ tasks, ∃ err, f t = Except.error err) →
      ∃ err, pool_map f tasks = Except.error err := by
  intro tasks
  induction tasks with
  | nil => rintro ⟨t, ht, _⟩; cases ht
  | cons t ts ih =>
      rintro ⟨u, hu, err, herr⟩
      cases hft : f t with
      | error e => exact ⟨e, by simp [pool_map, hft]⟩
      | ok r =>
          rcases List.mem_cons.mp hu with rfl | hu2
          · rw [hft] at herr; cases herr
          · obtain ⟨e, he⟩ := ih ⟨u, hu2, err, herr⟩
            exact ⟨e, by simp [pool_map, hft, he]⟩

/-- Counterexample to C6 as stated: with `--dir` and `--ext` both
present, a single file that does not decode as an image under the
`imagehash` method makes its worker raise (`cv2.resize` of `None`);
`pool.map` re-raises the exception in the parent, which has no handler, so
the run terminates with exit status 1, not 0. -/
theorem C6_counterexample :
    main_exit (some "d") (some ".png") HashMethod.imagehash (fun _ => false)
        (fun _ => ⟨2023, 6, 1, 10, 0, 0⟩) (fun _ _ => "aa") 1
        [⟨"d", "broken.png", 100, 50, none, ⟨[1, 2, 3], none⟩⟩] = 1 ∧
    main_exit (some "d") (some ".png") HashMethod.imagehash (fun _ => false)
        (fun _ => ⟨2023, 6, 1, 10, 0, 0⟩) (fun _ _ => "aa") 1
        [⟨"d", "broken.png", 100, 50, none, ⟨[1, 2, 3], none⟩⟩] ≠ 0 := by
  constructor
  · rfl
  · decide

/-- C6 amended: a missing required parameter terminates with exit
status 1 (usage error); with both parameters present the run terminates 0
provided every per-file task completes without raising; but an exception in
any task (e.g. an undecodable image under `imagehash`) propagates out of
`pool.map` unhandled and the run terminates 1 — per-file exceptions are not
absorbed into exit status 0. -/
theorem C6_exit_status (dirArg extArg : Option String) (method : HashMethod)
    (ex : String → Bool) (toDate : Int → DateTime)
    (digest : HashMethod → List Nat → String) (fuel : Nat)
    (tasks : List TaskInput) :
    (dirArg = none → main_exit dirArg extArg method ex toDate digest fuel tasks = 1) ∧
    (extArg = none → main_exit dirArg extArg method ex toDate digest fuel tasks = 1) ∧
    (∀ d e, dirArg = some d → extArg = some e →
      (∀ t ∈ tasks, ∃ r, rename_file_task ex toDate digest e method fuel t = Except.ok r) →
      main_exit dirArg extArg method ex toDate digest fuel tasks = 0) ∧
    (∀ d e, dirArg = some d → extArg = some e → d ≠ "undo" →
      (∃ t ∈ tasks, ∃ err,
        rename_file_task ex toDate digest e method fuel t = Except.error err) →
      main_exit dirArg extArg method ex toDate digest fuel tasks = 1) := by
  refine ⟨fun h => ?_, fun h => ?_, fun d e hd he hok => ?_, fun d e hd he hne herr => ?_⟩
  · subst h; cases extArg <;> rfl
  · subst h; cases dirArg <;> rfl
  · subst hd; subst he
    by_cases hu : d = "undo"
    · simp [main_exit, hu]
    · obtain ⟨rs, hrs⟩ := pool_map_ok (rename_file_task ex toDate digest e method fuel)
        tasks hok
      simp [main_exit, hu, hrs]
  · subst hd; subst he
    obtain ⟨err2, herr2⟩ := pool_map_error (rename_file_task ex toDate digest e method fuel)
      tasks herr
    simp [main_exit, hne, herr2]

/-- Witness for C6's amended statement at a concrete input: a run over one
well-behaved `sha256` task exits 0. -/
theorem C6_exit_status_witness :
    main_exit (some "d") (some ".png") HashMethod.sha256 (fun _ => false)
        (fun _ => ⟨2023, 6, 1, 10, 0, 0⟩) (fun _ _ => "aa") 1
        [⟨"d", "a.png", 100, 50, none, ⟨[], none⟩⟩] = 0 :=
  (C6_exit_status (some "d") (some ".png") HashMethod.sha256 (fun _ => false)
      (fun _ => ⟨2023, 6, 1, 10, 0, 0⟩) (fun _ _ => "aa") 1
      [⟨"d", "a.png", 100, 50, none, ⟨[], none⟩⟩]).2.2.1 "d" ".png" rfl rfl
    (by
      intro t ht
      simp only [List.mem_singleton] at ht
      subst ht
      exact ⟨_, rfl⟩)

end Birthname
